import Mathlib

/-!
Shallow embedding of the deprivation-index pipeline in
`src/deprivation_evictions/index/index.py` (class `MultiDimensionalDeprivation`),
together with proofs settling the frozen claims about it.

The pipeline is pandas code over float64 columns.  Cells are embedded as
`PVal`: either a finite rational, NaN (pandas missing value / 0÷0), or a
signed infinity (nonzero ÷ 0), with arithmetic and comparisons following
IEEE-754 / numpy semantics, which is what pandas uses elementwise.
-/

namespace DeprivationEvictions

/-- A pandas float64 cell: a finite value, NaN, plus infinity or minus
infinity.  NaN also stands for a missing value, as in pandas. -/
inductive PVal where
  | num (q : ℚ)
  | nan
  | inf
  | ninf
deriving DecidableEq

namespace PVal

/-- IEEE-754 addition as performed by numpy/pandas. -/
def add : PVal → PVal → PVal
  | nan, _ => nan
  | _, nan => nan
  | num a, num b => num (a + b)
  | num _, inf => inf
  | num _, ninf => ninf
  | inf, num _ => inf
  | ninf, num _ => ninf
  | inf, inf => inf
  | ninf, ninf => ninf
  | inf, ninf => nan
  | ninf, inf => nan

/-- IEEE-754 subtraction as performed by numpy/pandas. -/
def sub : PVal → PVal → PVal
  | nan, _ => nan
  | _, nan => nan
  | num a, num b => num (a - b)
  | num _, inf => ninf
  | num _, ninf => inf
  | inf, num _ => inf
  | ninf, num _ => ninf
  | inf, inf => nan
  | ninf, ninf => nan
  | inf, ninf => inf
  | ninf, inf => ninf

/-- IEEE-754 multiplication as performed by numpy/pandas:
in particular `inf * 0 = nan`. -/
def mul : PVal → PVal → PVal
  | nan, _ => nan
  | _, nan => nan
  | num a, num b => num (a * b)
  | num a, inf => if 0 < a then inf else if a < 0 then ninf else nan
  | num a, ninf => if 0 < a then ninf else if a < 0 then inf else nan
  | inf, num b => if 0 < b then inf else if b < 0 then ninf else nan
  | ninf, num b => if 0 < b then ninf else if b < 0 then inf else nan
  | inf, inf => inf
  | inf, ninf => ninf
  | ninf, inf => ninf
  | ninf, ninf => inf

/-- IEEE-754 division as performed by numpy/pandas: a positive value divided
by zero is `inf`, a negative one is `ninf`, and `0 / 0 = nan` (the literal
zero divisor carries the sign of positive zero). -/
def div : PVal → PVal → PVal
  | nan, _ => nan
  | _, nan => nan
  | num a, num b =>
      if b = 0 then (if 0 < a then inf else if a < 0 then ninf else nan)
      else num (a / b)
  | num _, inf => num 0
  | num _, ninf => num 0
  | inf, num b => if b < 0 then ninf else inf
  | ninf, num b => if b < 0 then inf else ninf
  | inf, inf => nan
  | inf, ninf => nan
  | ninf, inf => nan
  | ninf, ninf => nan

/-- The pandas comparison `v >= t` against a finite threshold `t`:
NaN compares `False`, `inf` compares `True`. -/
def geNum (v : PVal) (t : ℚ) : Bool :=
  match v with
  | num a => decide (t ≤ a)
  | nan => false
  | inf => true
  | ninf => false

/-- The pandas comparison `v < 0` (used by the mask `mat_g1[mat_g1 < 0]`):
NaN compares `False`. -/
def ltZero (v : PVal) : Bool :=
  match v with
  | num a => decide (a < 0)
  | nan => false
  | inf => false
  | ninf => true

/-- `fillna(0)` on one cell: NaN becomes `0`; infinities are NOT replaced. -/
def fillZero (v : PVal) : PVal :=
  match v with
  | nan => num 0
  | w => w

/-- The masked assignment `mat_g1[mat_g1 < 0] = 0` on one cell. -/
def clipNeg (v : PVal) : PVal :=
  if v.ltZero then num 0 else v

end PVal

/-- The fixed indicator set: `self.indicators = list(thresholds.keys())`
for the `thresholds` dictionary at the top of `index.py`. -/
inductive Indicator where
  | violent_crime
  | non_offensive_crime
  | RTI_ratio
  | time_to_CBD
  | distance_to_CBD
deriving DecidableEq

/-- The indicator list, in the dictionary's insertion order. -/
def indicators : List Indicator :=
  [Indicator.violent_crime, Indicator.non_offensive_crime, Indicator.RTI_ratio,
   Indicator.time_to_CBD, Indicator.distance_to_CBD]

/-- The configured `thresholds` dictionary of `index.py`
(`528.4 = 2642/5`, `0.3 = 3/10`, `7273.2 = 36366/5`). -/
def thresholds : Indicator → ℚ
  | Indicator.violent_crime => 1114
  | Indicator.non_offensive_crime => 2642 / 5
  | Indicator.RTI_ratio => 3 / 10
  | Indicator.time_to_CBD => 1200
  | Indicator.distance_to_CBD => 36366 / 5

/-- The configured AF cutoff `k = 0` of `index.py`. -/
def kConfigured : ℕ := 0

/-! ### Deprivation scorer (`deprivation_matrix`, `normalized_gap`)

All operations in `deprivation_matrix` and `normalized_gap` are elementwise
over the merged table, so they are embedded per zone row
(`row : Indicator → PVal` is the zone's merged indicator values) and per
indicator. -/

/-- One binary deprivation flag:
`(merged_data[ind] >= self.thresholds[ind]).astype(int)` at one zone. -/
def depFlag (t : Indicator → ℚ) (row : Indicator → PVal) (i : Indicator) : ℕ :=
  if (row i).geNum (t i) then 1 else 0

/-- The accumulated `merged_data['deprivation_share']` of one zone:
the flags are summed over the indicator list. -/
def deprivationShare (t : Indicator → ℚ) (row : Indicator → PVal) : ℕ :=
  (indicators.map (depFlag t row)).sum

/-- One entry of the censored matrix `mat_y` returned by
`deprivation_matrix`: the row assignment
`mat_y[merged_data['deprivation_share'] <= self.k] = 0` zeroes every flag of
a zone whose share is at most the cutoff. -/
def matYEntry (kk : ℕ) (t : Indicator → ℚ) (row : Indicator → PVal)
    (i : Indicator) : ℕ :=
  if deprivationShare t row ≤ kk then 0 else depFlag t row i

/-- One entry of the unmasked gap:
`(merged_data[ind] - self.thresholds[ind]) / self.thresholds[ind]`. -/
def g1Unmasked (t : Indicator → ℚ) (row : Indicator → PVal) (i : Indicator) : PVal :=
  ((row i).sub (PVal.num (t i))).div (PVal.num (t i))

/-- One entry of the matrix `mat_g1` returned by `normalized_gap`: the raw
gap, then `fillna(0)`, then the negative-mask assignment, then the
elementwise product with the censored flags (`mat_g1[ind] *= mat_y[ind]`). -/
def matG1Entry (kk : ℕ) (t : Indicator → ℚ) (row : Indicator → PVal)
    (i : Indicator) : PVal :=
  (PVal.clipNeg ((g1Unmasked t row i).fillZero)).mul
    (PVal.num ((matYEntry kk t row i : ℕ) : ℚ))

example : PVal.inf.mul (PVal.num 0) = PVal.nan := by decide

example :
    matG1Entry 1 thresholds
      (fun i => if i = Indicator.RTI_ratio then PVal.inf else PVal.num 0)
      Indicator.RTI_ratio = PVal.nan := by
  norm_num +decide [matG1Entry, g1Unmasked, matYEntry, deprivationShare, depFlag,
    indicators, thresholds, PVal.sub, PVal.div, PVal.mul, PVal.fillZero,
    PVal.clipNeg, PVal.ltZero, PVal.geNum]

example :
    matG1Entry 0 thresholds
      (fun i => if i = Indicator.violent_crime then PVal.num 2000 else PVal.num 0)
      Indicator.violent_crime = PVal.num (443 / 557) := by
  norm_num +decide [matG1Entry, g1Unmasked, matYEntry, deprivationShare, depFlag,
    indicators, thresholds, PVal.sub, PVal.div, PVal.mul, PVal.fillZero,
    PVal.clipNeg, PVal.ltZero, PVal.geNum]

/-! ### Ratio builder (`compute_ratios`)

`self.data` (read from `clean_database.csv`) has one row per zone with the
columns used by the pipeline; `google_distancematrix.csv` has zero or more
travel observations per zipcode. -/

/-- One row of the cleaned base dataset `self.data`. -/
structure CleanRow where
  zip_code : ℤ
  RentPrice : PVal
  hh_median_income : PVal
  violent_crime : PVal
  non_offensive_crime : PVal

/-- One observation row of the travel dataset. -/
structure TravelRow where
  zipcode : ℤ
  time_to_CBD : PVal
  distance_to_CBD : PVal

/-- One row of the merged table returned by `compute_ratios`. -/
structure MergedRow where
  zipcode : ℤ
  RentPrice : PVal
  hh_median_income : PVal
  violent_crime : PVal
  non_offensive_crime : PVal
  RTI_ratio : PVal
  time_to_CBD : PVal
  distance_to_CBD : PVal

/-- The pandas `Series.mean()` with its default `skipna=True`: NaN cells are
dropped, an all-NaN (or empty) column gives NaN, otherwise the sum of the
remaining cells is divided by their count. -/
def meanP (vs : List PVal) : PVal :=
  let usable := vs.filter (fun v => v ≠ PVal.nan)
  if usable.isEmpty then PVal.nan
  else (usable.foldl PVal.add (PVal.num 0)).div (PVal.num (usable.length : ℚ))

/-- The travel observations of one zipcode group
(`travel_data.groupby('zipcode')`). -/
def groupRows (travel : List TravelRow) (z : ℤ) : List TravelRow :=
  travel.filter (fun r => r.zipcode == z)

/-- The per-zipcode group means
`travel_data.groupby('zipcode')[['time_to_CBD', 'distance_to_CBD']].mean()`:
`none` when the zipcode has no observation at all (so no group row exists). -/
def groupMean (travel : List TravelRow) (z : ℤ) : Option (PVal × PVal) :=
  if (groupRows travel z).isEmpty then none
  else some (meanP ((groupRows travel z).map TravelRow.time_to_CBD),
             meanP ((groupRows travel z).map TravelRow.distance_to_CBD))

/-- The derived rent-to-income ratio of one zone:
`cleaned_data["RentPrice"] / (cleaned_data["hh_median_income"] / 12)`. -/
def rtiOf (c : CleanRow) : PVal :=
  c.RentPrice.div (c.hh_median_income.div (PVal.num 12))

/-- One merged row: the base row's columns, the freshly computed
`RTI_ratio`, and the matching travel group means. -/
def computeRatiosRow (c : CleanRow) (m : PVal × PVal) : MergedRow where
  zipcode := c.zip_code
  RentPrice := c.RentPrice
  hh_median_income := c.hh_median_income
  violent_crime := c.violent_crime
  non_offensive_crime := c.non_offensive_crime
  RTI_ratio := rtiOf c
  time_to_CBD := m.1
  distance_to_CBD := m.2

/-- The merged table returned by `compute_ratios`:
`pd.merge(cleaned_data, travel_data, on='zipcode', how='inner')` keeps the
base rows (in base order) whose zipcode has a travel group, pairing each
with that group's means; base rows without a travel group are dropped. -/
def computeRatios (cleaned : List CleanRow) (travel : List TravelRow) :
    List MergedRow :=
  cleaned.filterMap (fun c => (groupMean travel c.zip_code).map (computeRatiosRow c))

/-- The state of `self.data`: its rows, and the `RTI_ratio` column when it
has been written (it is absent right after `read_csv`, and `compute_ratios`
assigns it in place on the shared frame). -/
structure DataState where
  rows : List CleanRow
  rtiCol : Option (List PVal)

/-- The in-place effect of `compute_ratios` on `self.data`: the row
assignment `cleaned_data["RTI_ratio"] = ...` (over)writes the column on the
shared frame; no other column changes. -/
def computeRatiosState (s : DataState) : DataState where
  rows := s.rows
  rtiCol := some (s.rows.map rtiOf)

/-- The return value of `compute_ratios`, as a function of the instance
state and the travel file. -/
def computeRatiosMerged (travel : List TravelRow) (s : DataState) :
    List MergedRow :=
  computeRatios s.rows travel

/-- A merged row's indicator columns, the ones the scorer consumes. -/
def MergedRow.ind (r : MergedRow) : Indicator → PVal
  | Indicator.violent_crime => r.violent_crime
  | Indicator.non_offensive_crime => r.non_offensive_crime
  | Indicator.RTI_ratio => r.RTI_ratio
  | Indicator.time_to_CBD => r.time_to_CBD
  | Indicator.distance_to_CBD => r.distance_to_CBD

/-- The constructor `__init__(self, k, cleaned_data, thresholds)`: it stores
the cutoff, the freshly read data (no `RTI_ratio` column yet) and the
threshold configuration verbatim; no validation of any kind happens. -/
structure MultiDimensionalDeprivation where
  k : ℕ
  data : DataState
  thresholdsCfg : Indicator → ℚ

/-- `MultiDimensionalDeprivation.__init__`, line for line: every field is
stored as passed. -/
def MultiDimensionalDeprivation.init (kk : ℕ) (rows : List CleanRow)
    (t : Indicator → ℚ) : MultiDimensionalDeprivation where
  k := kk
  data := ⟨rows, none⟩
  thresholdsCfg := t

/-! ### Index aggregator (`weighted_deprivation_inx`, min-max scaling)

The weighted index and its scaling act on the numeric gap matrix; rows are
`Indicator → ℚ` (one per surviving zone, finite entries). -/

/-- `Series.min()` of a numeric column (the run's global minimum). -/
def listMin : List ℚ → ℚ
  | [] => 0
  | x :: r => r.foldl min x

/-- `Series.max()` of a numeric column (the run's global maximum). -/
def listMax : List ℚ → ℚ
  | [] => 0
  | x :: r => r.foldl max x

/-- The scaling `(s - s.min()) / (s.max() - s.min())` applied elementwise,
exactly as in lines 198 and 221 of `index.py`; the division is the IEEE one,
so a degenerate column (max = min) produces NaN cells. -/
def minMaxScale (xs : List ℚ) : List PVal :=
  xs.map (fun x =>
    (PVal.num (x - listMin xs)).div (PVal.num (listMax xs - listMin xs)))

/-- `weights.sum(axis=0)`: the loadings summed across factors, one raw
weight per indicator. -/
def aggregateWeights (weights : List (Indicator → ℚ)) (i : Indicator) : ℚ :=
  (weights.map (fun r => r i)).sum

/-- `matrix.dot(weights)` after the axis-0 aggregation: one raw weighted
index per surviving zone. -/
def wdiList (matrix weights : List (Indicator → ℚ)) : List ℚ :=
  matrix.map (fun row => (indicators.map (fun i => row i * aggregateWeights weights i)).sum)

/-- The frame returned by `weighted_deprivation_inx`:
`pd.DataFrame({'wdi': ..., 'wdi_scaled': ...}, index=self.data.index)`
reindexes both series (indexed `0..m-1` by the merge) on the base frame's
index `0..n-1`, so labels beyond the series give NaN (here `none`). -/
def weightedDeprivationInx (matrix weights : List (Indicator → ℚ)) (n : ℕ) :
    List (Option ℚ × Option PVal) :=
  (List.range n).map (fun p =>
    ((wdiList matrix weights).get? p, (minMaxScale (wdiList matrix weights)).get? p))

/-! ### Helper lemmas about the scorer -/

/-- After `fillna(0)` and the negative mask, a gap cell is either a
non-negative finite value or plus infinity; it is never NaN or minus
infinity. -/
lemma clipNeg_fillZero_shape (v : PVal) :
    (∃ q : ℚ, 0 ≤ q ∧ PVal.clipNeg v.fillZero = PVal.num q)
      ∨ PVal.clipNeg v.fillZero = PVal.inf := by
  cases v with
  | num a =>
      by_cases h : a < 0
      · exact Or.inl ⟨0, le_refl 0, by simp [PVal.fillZero, PVal.clipNeg, PVal.ltZero, h]⟩
      · exact Or.inl ⟨a, not_lt.mp h, by simp [PVal.fillZero, PVal.clipNeg, PVal.ltZero, h]⟩
  | nan => exact Or.inl ⟨0, le_refl 0, by simp [PVal.fillZero, PVal.clipNeg, PVal.ltZero]⟩
  | inf => exact Or.inr (by simp [PVal.fillZero, PVal.clipNeg, PVal.ltZero])
  | ninf => exact Or.inl ⟨0, le_refl 0, by simp [PVal.fillZero, PVal.clipNeg, PVal.ltZero]⟩

/-- A finite merged cell with a nonzero threshold: the `normalized_gap`
entry is the clipped relative gap times the censored flag, all finite. -/
lemma matG1Entry_num (kk : ℕ) (t : Indicator → ℚ) (row : Indicator → PVal)
    (i : Indicator) (q : ℚ) (hq : row i = PVal.num q) (ht : t i ≠ 0) :
    matG1Entry kk t row i
      = PVal.num (max 0 ((q - t i) / t i) * (matYEntry kk t row i : ℚ)) := by
  unfold matG1Entry g1Unmasked
  rw [hq]
  simp only [PVal.sub, PVal.div, if_neg ht, PVal.fillZero, PVal.clipNeg, PVal.ltZero]
  by_cases h : (q - t i) / t i < 0
  · simp only [decide_eq_true_eq, if_pos h, PVal.mul]
    rw [max_eq_left h.le, zero_mul]
  · simp only [decide_eq_true_eq, if_neg h, PVal.mul]
    rw [max_eq_right (not_lt.mp h)]

/-- A missing (NaN) merged cell: the flag is 0 (never deprived) and the
`normalized_gap` entry is 0, via `fillna(0)`. -/
lemma matG1Entry_nan (kk : ℕ) (t : Indicator → ℚ) (row : Indicator → PVal)
    (i : Indicator) (hq : row i = PVal.nan) :
    depFlag t row i = 0 ∧ matG1Entry kk t row i = PVal.num 0 := by
  constructor
  · simp [depFlag, hq, PVal.geNum]
  · unfold matG1Entry g1Unmasked
    rw [hq]
    simp only [PVal.sub, PVal.div, PVal.fillZero, PVal.clipNeg, PVal.ltZero]
    norm_num [PVal.mul]

/-! ### Claims C1, C2, C5, C7 (scorer and ratio builder) -/

/-- Claim C2: for every zone and indicator with a nonzero threshold, the
`normalized_gap` entry at a finite value `q` equals
`max 0 ((q - t)/t)` multiplied by the censored deprivation flag; in
particular it is `0` whenever `q < t`, and a missing value yields flag `0`
(treated as non-deprived, never as deprived) and gap `0`. -/
theorem claim_C2 (t : Indicator → ℚ) (kk : ℕ) (row : Indicator → PVal)
    (i : Indicator) (q : ℚ) (ht : t i ≠ 0) :
    (row i = PVal.num q →
        matG1Entry kk t row i
          = PVal.num (max 0 ((q - t i) / t i) * (matYEntry kk t row i : ℚ)))
    ∧ (row i = PVal.num q → q < t i → matG1Entry kk t row i = PVal.num 0)
    ∧ (row i = PVal.nan →
        depFlag t row i = 0 ∧ matG1Entry kk t row i = PVal.num 0) := by
  refine ⟨fun hq => matG1Entry_num kk t row i q hq ht, fun hq hlt => ?_,
    fun hq => matG1Entry_nan kk t row i hq⟩
  rw [matG1Entry_num kk t row i q hq ht]
  have hflag : depFlag t row i = 0 := by
    simp [depFlag, hq, PVal.geNum, not_le.mpr hlt]
  have hy : matYEntry kk t row i = 0 := by
    unfold matYEntry
    split
    · rfl
    · exact hflag
  rw [hy]
  norm_num

/-- The spec's §8 zone A: violent_crime 2000, all other indicators 0
(below their thresholds). -/
def rowC2 : Indicator → PVal := fun i =>
  if i = Indicator.violent_crime then PVal.num 2000 else PVal.num 0

/-- Witness for claim C2 at the spec's own concrete scenario (zone A with
k = 0): the violent-crime gap is (2000-1114)/1114 = 443/557 and the
RTI-ratio gap (value 0 below threshold 0.3) is 0. -/
theorem claim_C2_witness :
    matG1Entry 0 thresholds rowC2 Indicator.violent_crime = PVal.num (443 / 557)
    ∧ matG1Entry 0 thresholds rowC2 Indicator.RTI_ratio = PVal.num 0 := by
  constructor
  · have h := (claim_C2 thresholds 0 rowC2 Indicator.violent_crime 2000
      (by norm_num [thresholds])).1 (by norm_num +decide [rowC2])
    rw [h, max_eq_right (by norm_num [thresholds])]
    norm_num +decide [matYEntry, deprivationShare, depFlag, indicators, thresholds,
      rowC2, PVal.geNum]
  · exact (claim_C2 thresholds 0 rowC2 Indicator.RTI_ratio 0
      (by norm_num [thresholds])).2.1 (by norm_num +decide [rowC2])
      (by norm_num [thresholds])

/-- Claim C1 (amended): for a zone whose deprivation share is at most the
cutoff, every `deprivation_matrix` entry is 0; the `normalized_gap` entry is
0 as well, provided the zone's clipped gap cell at that indicator is not
plus infinity.  (When it is plus infinity -- e.g. the RTI_ratio of a zone
with zero income and positive rent -- the censoring multiplication computes
`inf * 0 = NaN`, not 0; see the counterexample.) -/
theorem claim_C1_amended (kk : ℕ) (t : Indicator → ℚ) (row : Indicator → PVal)
    (i : Indicator) (hs : deprivationShare t row ≤ kk) :
    matYEntry kk t row i = 0
    ∧ (PVal.clipNeg ((g1Unmasked t row i).fillZero) ≠ PVal.inf →
        matG1Entry kk t row i = PVal.num 0) := by
  have hy : matYEntry kk t row i = 0 := by
    unfold matYEntry
    rw [if_pos hs]
  refine ⟨hy, fun hnotinf => ?_⟩
  unfold matG1Entry
  rw [hy]
  rcases clipNeg_fillZero_shape (g1Unmasked t row i) with ⟨q, _, hq⟩ | hinf
  · rw [hq]
    norm_num [PVal.mul]
  · exact absurd hinf hnotinf

/-- Witness for claim C1 (amended): a zone with every raw indicator 0 has
share 0 ≤ k = 0, and both matrices are 0 at violent_crime. -/
theorem claim_C1_witness :
    matYEntry 0 thresholds (fun _ => PVal.num 0) Indicator.violent_crime = 0
    ∧ matG1Entry 0 thresholds (fun _ => PVal.num 0) Indicator.violent_crime
        = PVal.num 0 := by
  have h := claim_C1_amended 0 thresholds (fun _ => PVal.num 0)
    Indicator.violent_crime
    (by norm_num +decide [deprivationShare, depFlag, indicators, thresholds, PVal.geNum])
  refine ⟨h.1, h.2 ?_⟩
  norm_num [g1Unmasked, PVal.sub, PVal.div, thresholds,
    PVal.fillZero, PVal.clipNeg, PVal.ltZero]
  decide

/-- The base dataset of the C1 counterexample: one zone with rent 1000 and
income 0 (both perfectly ordinary raw CSV values), all crime counts 0. -/
def cleanedC1 : List CleanRow :=
  [⟨606, PVal.num 1000, PVal.num 0, PVal.num 0, PVal.num 0⟩]

/-- The travel dataset of the C1 counterexample: one observation for the
zone, with both metrics 0. -/
def travelC1 : List TravelRow := [⟨606, PVal.num 0, PVal.num 0⟩]

/-- Counterexample to claim C1 as stated: with cutoff k = 1 and the
configured thresholds, the single zone of `cleanedC1` (rent 1000, income 0,
everything else 0) has RTI_ratio = 1000/(0/12) = +inf, hence deprivation
share 1 ≤ k; `deprivation_matrix` is censored to 0 as claimed, but the
`normalized_gap` entry at RTI_ratio is `inf * 0 = NaN`, not 0. -/
theorem claim_C1_counterexample :
    (computeRatios cleanedC1 travelC1).map
        (fun r => deprivationShare thresholds r.ind) = [1]
    ∧ (computeRatios cleanedC1 travelC1).map
        (fun r => matYEntry 1 thresholds r.ind Indicator.RTI_ratio) = [0]
    ∧ (computeRatios cleanedC1 travelC1).map
        (fun r => matG1Entry 1 thresholds r.ind Indicator.RTI_ratio) = [PVal.nan]
    ∧ PVal.nan ≠ PVal.num 0 := by
  have hmerge : computeRatios cleanedC1 travelC1
      = [⟨606, PVal.num 1000, PVal.num 0, PVal.num 0, PVal.num 0,
          PVal.inf, PVal.num 0, PVal.num 0⟩] := by
    norm_num +decide [computeRatios, cleanedC1, travelC1, groupMean, groupRows,
      meanP, computeRatiosRow, rtiOf, PVal.add, PVal.div, List.filterMap_cons,
      List.filter]
  rw [hmerge]
  refine ⟨?_, ?_, ?_, by decide⟩
  · norm_num +decide [deprivationShare, depFlag, indicators, thresholds,
      MergedRow.ind, PVal.geNum]
  · norm_num +decide [matYEntry, deprivationShare, depFlag, indicators,
      thresholds, MergedRow.ind, PVal.geNum]
  · norm_num +decide [matG1Entry, g1Unmasked, matYEntry, deprivationShare,
      depFlag, indicators, thresholds, MergedRow.ind, PVal.geNum, PVal.sub,
      PVal.div, PVal.mul, PVal.fillZero, PVal.clipNeg, PVal.ltZero]

/-- Claim C5 (amended): `__init__` performs no threshold validation at all
(the configuration is stored verbatim), and a zero threshold reaches
`normalized_gap`, where the division by the threshold produces plus
infinity for any uncensored zone with a positive finite value at that
indicator -- infinity is propagated, nothing fails fast. -/
theorem claim_C5_amended (kk : ℕ) (rows : List CleanRow) (t : Indicator → ℚ)
    (row : Indicator → PVal) (i : Indicator) (q : ℚ)
    (ht : t i = 0) (hq : row i = PVal.num q) (hpos : 0 < q)
    (hshare : ¬ deprivationShare t row ≤ kk) :
    (MultiDimensionalDeprivation.init kk rows t).thresholdsCfg i = 0
    ∧ matG1Entry kk t row i = PVal.inf := by
  refine ⟨ht, ?_⟩
  have h1 : g1Unmasked t row i = PVal.inf := by
    unfold g1Unmasked
    rw [hq, ht]
    norm_num [PVal.sub, PVal.div, hpos]
  have h2 : matYEntry kk t row i = 1 := by
    unfold matYEntry depFlag
    rw [if_neg hshare, hq, ht]
    norm_num [PVal.geNum, hpos.le]
  unfold matG1Entry
  rw [h1, h2]
  norm_num [PVal.fillZero, PVal.clipNeg, PVal.ltZero, PVal.mul]

/-- A threshold configuration with a zero violent-crime threshold. -/
def tC5 : Indicator → ℚ := fun i =>
  if i = Indicator.violent_crime then 0 else thresholds i

/-- A zone with violent_crime 5 and every other indicator 0. -/
def rowC5 : Indicator → PVal := fun i =>
  if i = Indicator.violent_crime then PVal.num 5 else PVal.num 0

/-- Witness for claim C5 (amended): at the concrete zero-threshold
configuration `tC5` and zone `rowC5` (k = 0), the constructor stores the
zero threshold and the gap entry is plus infinity. -/
theorem claim_C5_witness :
    (MultiDimensionalDeprivation.init 0 [] tC5).thresholdsCfg
        Indicator.violent_crime = 0
    ∧ matG1Entry 0 tC5 rowC5 Indicator.violent_crime = PVal.inf :=
  claim_C5_amended 0 [] tC5 rowC5 Indicator.violent_crime 5
    (by norm_num +decide [tC5]) (by norm_num +decide [rowC5]) (by norm_num)
    (by norm_num +decide [deprivationShare, depFlag, indicators, tC5, rowC5,
      thresholds, PVal.geNum])

/-- Counterexample to claim C5 as stated: the pipeline never rejects the
zero threshold -- the constructor accepts `tC5` unchanged, and with the
configured k = 0 the computation on `rowC5` reaches the division by zero
and propagates plus infinity into the gap matrix instead of failing fast. -/
theorem claim_C5_counterexample :
    (MultiDimensionalDeprivation.init kConfigured [] tC5).thresholdsCfg
        Indicator.violent_crime = 0
    ∧ matG1Entry kConfigured tC5 rowC5 Indicator.violent_crime = PVal.inf
    ∧ PVal.inf ≠ PVal.num 0 := by
  refine ⟨by norm_num +decide [MultiDimensionalDeprivation.init, tC5], ?_, by decide⟩
  norm_num +decide [matG1Entry, g1Unmasked, matYEntry, deprivationShare, depFlag,
    indicators, tC5, rowC5, thresholds, kConfigured, PVal.sub, PVal.div,
    PVal.mul, PVal.fillZero, PVal.clipNeg, PVal.ltZero, PVal.geNum]

/-- Claim C7 (amended): `compute_ratios` sets the rent-to-income ratio to
rent/(income/12).  A missing income propagates NaN, which is accepted
silently and later replaced by 0 in the scorer's fillna step (flag 0, gap
0).  A zero income with positive rent, however, propagates plus infinity --
not NaN. -/
theorem claim_C7_amended (c : CleanRow) (q r : ℚ) (kk : ℕ)
    (t : Indicator → ℚ) (row : Indicator → PVal) :
    (c.RentPrice = PVal.num q → c.hh_median_income = PVal.num r → r ≠ 0 →
        rtiOf c = PVal.num (q / (r / 12)))
    ∧ (c.hh_median_income = PVal.nan → rtiOf c = PVal.nan)
    ∧ (c.RentPrice = PVal.num q → c.hh_median_income = PVal.num 0 → 0 < q →
        rtiOf c = PVal.inf)
    ∧ (row Indicator.RTI_ratio = PVal.nan →
        depFlag t row Indicator.RTI_ratio = 0
        ∧ matG1Entry kk t row Indicator.RTI_ratio = PVal.num 0) := by
  refine ⟨?_, ?_, ?_, fun h => matG1Entry_nan kk t row Indicator.RTI_ratio h⟩
  · intro hrent hinc hr
    unfold rtiOf
    rw [hrent, hinc]
    have h12 : ((12:ℚ) = 0) = False := by norm_num
    have hr12 : (r / 12 = 0) = False := by
      simp [div_eq_zero_iff, hr]
    simp [PVal.div, h12, hr12]
  · intro hinc
    unfold rtiOf
    rw [hinc]
    cases c.RentPrice <;> simp [PVal.div]
  · intro hrent hinc hqpos
    unfold rtiOf
    rw [hrent, hinc]
    norm_num [PVal.div, hqpos]

/-- Witness for claim C7 (amended): a zone with rent 1500 and income 60000
gets ratio 1500/(60000/12) = 0.3, and a zone with missing income gets NaN. -/
theorem claim_C7_witness :
    rtiOf ⟨606, PVal.num 1500, PVal.num 60000, PVal.num 0, PVal.num 0⟩
        = PVal.num (1500 / (60000 / 12))
    ∧ rtiOf ⟨607, PVal.num 1500, PVal.nan, PVal.num 0, PVal.num 0⟩ = PVal.nan :=
  ⟨(claim_C7_amended ⟨606, PVal.num 1500, PVal.num 60000, PVal.num 0, PVal.num 0⟩
      1500 60000 0 thresholds (fun _ => PVal.num 0)).1 rfl rfl (by norm_num),
   (claim_C7_amended ⟨607, PVal.num 1500, PVal.nan, PVal.num 0, PVal.num 0⟩
      1500 60000 0 thresholds (fun _ => PVal.num 0)).2.1 rfl⟩

/-- Counterexample to claim C7 as stated: a zone with rent 1000 and income
exactly 0 gets RTI_ratio 1000/(0/12) = +inf, which is infinity, not NaN --
and infinity is not replaced by the scorer's fillna step. -/
theorem claim_C7_counterexample :
    rtiOf ⟨606, PVal.num 1000, PVal.num 0, PVal.num 0, PVal.num 0⟩ = PVal.inf
    ∧ PVal.inf ≠ PVal.nan
    ∧ PVal.fillZero PVal.inf = PVal.inf := by
  refine ⟨?_, by decide, by decide⟩
  norm_num [rtiOf, PVal.div]

/-! ### Claims C3, C4 (min-max scaling) -/

/-- A left fold of `min` is below its seed and below every list element. -/
lemma foldl_min_le (r : List ℚ) (a : ℚ) :
    r.foldl min a ≤ a ∧ ∀ x ∈ r, r.foldl min a ≤ x := by
  induction r generalizing a with
  | nil => simp
  | cons b r ih =>
      obtain ⟨h1, h2⟩ := ih (min a b)
      refine ⟨le_trans h1 (min_le_left a b), ?_⟩
      intro x hx
      rcases List.mem_cons.mp hx with rfl | hx
      · exact le_trans h1 (min_le_right a x)
      · exact h2 x hx

/-- A left fold of `max` is above its seed and above every list element. -/
lemma le_foldl_max (r : List ℚ) (a : ℚ) :
    a ≤ r.foldl max a ∧ ∀ x ∈ r, x ≤ r.foldl max a := by
  induction r generalizing a with
  | nil => simp
  | cons b r ih =>
      obtain ⟨h1, h2⟩ := ih (max a b)
      refine ⟨le_trans (le_max_left a b) h1, ?_⟩
      intro x hx
      rcases List.mem_cons.mp hx with rfl | hx
      · exact le_trans (le_max_right a x) h1
      · exact h2 x hx

/-- `Series.min()` is a lower bound of the column. -/
lemma listMin_le (xs : List ℚ) (x : ℚ) (hx : x ∈ xs) : listMin xs ≤ x := by
  cases xs with
  | nil => cases hx
  | cons a r =>
      rcases List.mem_cons.mp hx with rfl | hx
      · exact (foldl_min_le r x).1
      · exact (foldl_min_le r a).2 x hx

/-- `Series.max()` is an upper bound of the column. -/
lemma le_listMax (xs : List ℚ) (x : ℚ) (hx : x ∈ xs) : x ≤ listMax xs := by
  cases xs with
  | nil => cases hx
  | cons a r =>
      rcases List.mem_cons.mp hx with rfl | hx
      · exact (le_foldl_max r x).1
      · exact (le_foldl_max r a).2 x hx

/-- A left fold of `min` is its seed or one of the list elements. -/
lemma foldl_min_choice (r : List ℚ) (a : ℚ) :
    r.foldl min a = a ∨ r.foldl min a ∈ r := by
  induction r generalizing a with
  | nil => exact Or.inl rfl
  | cons b r ih =>
      rcases ih (min a b) with h | h
      · rcases min_choice a b with h' | h'
        · exact Or.inl (by rw [List.foldl_cons, h, h'])
        · exact Or.inr (by rw [List.foldl_cons, h, h']; exact List.mem_cons_self b r)
      · exact Or.inr (List.mem_cons_of_mem b h)

/-- A left fold of `max` is its seed or one of the list elements. -/
lemma foldl_max_choice (r : List ℚ) (a : ℚ) :
    r.foldl max a = a ∨ r.foldl max a ∈ r := by
  induction r generalizing a with
  | nil => exact Or.inl rfl
  | cons b r ih =>
      rcases ih (max a b) with h | h
      · rcases max_choice a b with h' | h'
        · exact Or.inl (by rw [List.foldl_cons, h, h'])
        · exact Or.inr (by rw [List.foldl_cons, h, h']; exact List.mem_cons_self b r)
      · exact Or.inr (List.mem_cons_of_mem b h)

/-- `Series.min()` of a nonempty column is attained by an element. -/
lemma listMin_mem (xs : List ℚ) (h : xs ≠ []) : listMin xs ∈ xs := by
  cases xs with
  | nil => exact absurd rfl h
  | cons a r =>
      rcases foldl_min_choice r a with h' | h'
      · rw [show listMin (a :: r) = r.foldl min a from rfl, h']
        exact List.mem_cons_self a r
      · rw [show listMin (a :: r) = r.foldl min a from rfl]
        exact List.mem_cons_of_mem a h'

/-- `Series.max()` of a nonempty column is attained by an element. -/
lemma listMax_mem (xs : List ℚ) (h : xs ≠ []) : listMax xs ∈ xs := by
  cases xs with
  | nil => exact absurd rfl h
  | cons a r =>
      rcases foldl_max_choice r a with h' | h'
      · rw [show listMax (a :: r) = r.foldl max a from rfl, h']
        exact List.mem_cons_self a r
      · rw [show listMax (a :: r) = r.foldl max a from rfl]
        exact List.mem_cons_of_mem a h'

/-- Claim C3: when at least two zones have distinct raw weighted-index
values, every scaled value is a finite number in [0,1]; a position holding
the global minimum scales to exactly 0 and a position holding the global
maximum scales to exactly 1 (the minimum and maximum are taken over the
full column); concretely, [2, 5, 8] scales to [0, 1/2, 1]. -/
theorem claim_C3 (xs : List ℚ) (a b : ℚ) (ha : a ∈ xs) (hb : b ∈ xs)
    (hab : a ≠ b) :
    (∀ v ∈ minMaxScale xs, ∃ q : ℚ, v = PVal.num q ∧ 0 ≤ q ∧ q ≤ 1)
    ∧ (∀ p x, xs.get? p = some x → x = listMin xs →
        (minMaxScale xs).get? p = some (PVal.num 0))
    ∧ (∀ p x, xs.get? p = some x → x = listMax xs →
        (minMaxScale xs).get? p = some (PVal.num 1))
    ∧ minMaxScale [2, 5, 8] = [PVal.num 0, PVal.num (1/2), PVal.num 1] := by
  have hlt : listMin xs < listMax xs := by
    rcases lt_or_gt_of_ne hab with h | h
    · exact lt_of_le_of_lt (listMin_le xs a ha) (lt_of_lt_of_le h (le_listMax xs b hb))
    · exact lt_of_le_of_lt (listMin_le xs b hb) (lt_of_lt_of_le h (le_listMax xs a ha))
  have hd : listMax xs - listMin xs ≠ 0 := ne_of_gt (sub_pos.mpr hlt)
  have hform : ∀ x : ℚ,
      (PVal.num (x - listMin xs)).div (PVal.num (listMax xs - listMin xs))
        = PVal.num ((x - listMin xs) / (listMax xs - listMin xs)) := by
    intro x
    simp [PVal.div, hd]
  refine ⟨?_, ?_, ?_, ?_⟩
  · intro v hv
    obtain ⟨x, hx, hfx⟩ := List.mem_map.mp hv
    refine ⟨(x - listMin xs) / (listMax xs - listMin xs), ?_, ?_, ?_⟩
    · rw [← hfx, hform]
    · exact div_nonneg (sub_nonneg.mpr (listMin_le xs x hx))
        (sub_nonneg.mpr hlt.le)
    · rw [div_le_one (sub_pos.mpr hlt)]
      exact sub_le_sub_right (le_listMax xs x hx) _
  · intro p x hp hxmin
    unfold minMaxScale
    rw [List.get?_map, hp, Option.map_some', hform, hxmin, sub_self, zero_div]
  · intro p x hp hxmax
    unfold minMaxScale
    rw [List.get?_map, hp, Option.map_some', hform, hxmax,
      div_self hd]
  · norm_num [minMaxScale, listMin, listMax, PVal.div]

/-- Witness for claim C3 at the spec's concrete scenario [2, 5, 8]. -/
theorem claim_C3_witness :
    minMaxScale [2, 5, 8] = [PVal.num 0, PVal.num (1/2), PVal.num 1] :=
  (claim_C3 [2, 5, 8] 2 5 (by norm_num) (by norm_num) (by norm_num)).2.2.2

/-- Claim C4 (amended): when every zone has the same raw index the scaled
column is NaN everywhere -- `(x - min)/(max - min)` is the IEEE `0/0` -- and
the pipeline raises no error: the NaN cells are what reaches the written
output columns `wdi_scaled` and `g1_sum_scaled`, both of which are computed
by exactly this scaling. -/
theorem claim_C4_amended (xs : List ℚ) (hall : ∀ a ∈ xs, ∀ b ∈ xs, a = b)
    (p : ℕ) (hp : p < xs.length) :
    (minMaxScale xs).get? p = some PVal.nan := by
  have hx : xs.get? p = some (xs.get ⟨p, hp⟩) := List.get?_eq_get hp
  have hxmem : xs.get ⟨p, hp⟩ ∈ xs := List.get?_mem hx
  have hne : xs ≠ [] :=
    List.ne_nil_of_length_pos (Nat.lt_of_le_of_lt (Nat.zero_le p) hp)
  have hminx : listMin xs = xs.get ⟨p, hp⟩ :=
    hall _ (listMin_mem xs hne) _ hxmem
  have hmaxx : listMax xs = xs.get ⟨p, hp⟩ :=
    hall _ (listMax_mem xs hne) _ hxmem
  unfold minMaxScale
  rw [List.get?_map, hx, Option.map_some', hminx, hmaxx, sub_self]
  simp [PVal.div]

/-- Witness for claim C4 (amended): the degenerate column [2, 2, 2] scales
to NaN at position 0. -/
theorem claim_C4_witness : (minMaxScale [2, 2, 2]).get? 0 = some PVal.nan :=
  claim_C4_amended [2, 2, 2] (by norm_num) 0 (by norm_num)

/-- Counterexample to claim C4 as stated: with three zones of identical raw
index 2, no error is surfaced anywhere -- the scaling is a total function --
and the scaled column is literally [NaN, NaN, NaN], which is what gets
written. -/
theorem claim_C4_counterexample :
    minMaxScale [2, 2, 2] = [PVal.nan, PVal.nan, PVal.nan]
    ∧ PVal.nan ≠ PVal.num 0 := by
  refine ⟨?_, by decide⟩
  norm_num [minMaxScale, listMin, listMax, PVal.div]

/-! ### Claim C6 (inner merge on the zone key) -/

/-- A zipcode's travel group is empty exactly when the zipcode appears in no
travel observation. -/
lemma groupRows_isEmpty_iff (travel : List TravelRow) (z : ℤ) :
    (groupRows travel z).isEmpty = true ↔ z ∉ travel.map TravelRow.zipcode := by
  rw [List.isEmpty_iff]
  unfold groupRows
  rw [List.filter_eq_nil_iff]
  constructor
  · intro h hmem
    obtain ⟨r, hr, hrz⟩ := List.mem_map.mp hmem
    exact h r hr (by simp [hrz])
  · intro h r hr hbeq
    exact h (List.mem_map.mpr ⟨r, hr, by simpa using hbeq⟩)

/-- The grouped travel frame has a row for a zipcode exactly when the
zipcode appears among the travel observations. -/
lemma groupMean_isSome_iff (travel : List TravelRow) (z : ℤ) :
    (groupMean travel z).isSome = true ↔ z ∈ travel.map TravelRow.zipcode := by
  unfold groupMean
  by_cases h : (groupRows travel z).isEmpty = true
  · rw [if_pos h]
    simp only [Option.isSome_none, Bool.false_eq_true, false_iff]
    exact (groupRows_isEmpty_iff travel z).mp h
  · rw [if_neg h]
    simp only [Option.isSome_some, true_iff]
    by_contra hmem
    exact h ((groupRows_isEmpty_iff travel z).mpr hmem)

/-- The inner merge keeps exactly the base rows whose zipcode has a travel
group. -/
lemma computeRatios_length (cleaned : List CleanRow) (travel : List TravelRow) :
    (computeRatios cleaned travel).length
      = (cleaned.filter (fun c => (groupMean travel c.zip_code).isSome)).length := by
  induction cleaned with
  | nil => rfl
  | cons c cs ih =>
      unfold computeRatios at ih ⊢
      rw [List.filterMap_cons, List.filter_cons]
      cases h : groupMean travel c.zip_code with
      | none => simp [h, ih]
      | some m => simp [h, ih]

/-- For a duplicate-free key list, filtering by membership in another list
counts exactly the common keys. -/
lemma filter_mem_length_eq_inter_card (zs t : List ℤ) (h : zs.Nodup) :
    (zs.filter (fun z => decide (z ∈ t))).length
      = (zs.toFinset ∩ t.toFinset).card := by
  rw [← List.toFinset_card_of_nodup (h.filter _)]
  congr 1
  ext z
  simp [List.mem_toFinset, List.mem_filter, Finset.mem_inter]

/-- Claim C6: `compute_ratios` aggregates the travel metrics by arithmetic
mean per zipcode and inner-joins them onto the base dataset: when the base
dataset has one row per zone key, the merged row count is exactly the number
of zone keys present in both inputs, and every merged row's key occurs in
both inputs (no partial records), carrying that key's travel means. -/
theorem claim_C6 (cleaned : List CleanRow) (travel : List TravelRow)
    (hnd : (cleaned.map CleanRow.zip_code).Nodup) :
    (computeRatios cleaned travel).length
      = ((cleaned.map CleanRow.zip_code).toFinset
          ∩ (travel.map TravelRow.zipcode).toFinset).card
    ∧ ∀ r ∈ computeRatios cleaned travel,
        r.zipcode ∈ cleaned.map CleanRow.zip_code
        ∧ r.zipcode ∈ travel.map TravelRow.zipcode
        ∧ r.time_to_CBD
            = meanP ((groupRows travel r.zipcode).map TravelRow.time_to_CBD)
        ∧ r.distance_to_CBD
            = meanP ((groupRows travel r.zipcode).map TravelRow.distance_to_CBD) := by
  constructor
  · rw [computeRatios_length]
    have hcongr : cleaned.filter (fun c => (groupMean travel c.zip_code).isSome)
        = cleaned.filter
            (fun c => decide (c.zip_code ∈ travel.map TravelRow.zipcode)) := by
      apply List.filter_congr
      intro c _
      rw [Bool.eq_iff_iff, decide_eq_true_iff]
      exact groupMean_isSome_iff travel c.zip_code
    rw [hcongr, ← filter_mem_length_eq_inter_card _ _ hnd,
      ← List.countP_eq_length_filter, ← List.countP_eq_length_filter,
      List.countP_map]
    rfl
  · intro r hr
    obtain ⟨c, hc, hmap⟩ := List.mem_filterMap.mp hr
    obtain ⟨m, hm, hrow⟩ := Option.map_eq_some'.mp hmap
    have hz : r.zipcode = c.zip_code := by rw [← hrow]; rfl
    have hsome : (groupMean travel c.zip_code).isSome = true := by
      rw [hm]; rfl
    have hmemT : c.zip_code ∈ travel.map TravelRow.zipcode :=
      (groupMean_isSome_iff travel c.zip_code).mp hsome
    have hnotempty : ¬ (groupRows travel c.zip_code).isEmpty = true := by
      intro he
      exact (groupRows_isEmpty_iff travel c.zip_code).mp he hmemT
    have hmval : m = (meanP ((groupRows travel c.zip_code).map TravelRow.time_to_CBD),
        meanP ((groupRows travel c.zip_code).map TravelRow.distance_to_CBD)) := by
      unfold groupMean at hm
      rw [if_neg hnotempty] at hm
      exact (Option.some.injEq _ _).mp hm.symm
    refine ⟨?_, ?_, ?_, ?_⟩
    · rw [hz]
      exact List.mem_map.mpr ⟨c, hc, rfl⟩
    · rw [hz]; exact hmemT
    · have : r.time_to_CBD = m.1 := by rw [← hrow]; rfl
      rw [this, hmval, hz]
    · have : r.distance_to_CBD = m.2 := by rw [← hrow]; rfl
      rw [this, hmval, hz]

/-- The C6 witness base dataset: two zones, keys 1 and 2. -/
def cleanedC6 : List CleanRow :=
  [⟨1, PVal.num 800, PVal.num 60000, PVal.num 0, PVal.num 0⟩,
   ⟨2, PVal.num 900, PVal.num 50000, PVal.num 0, PVal.num 0⟩]

/-- The C6 witness travel dataset: two observations for key 1, one for key
3; key 2 is absent. -/
def travelC6 : List TravelRow :=
  [⟨1, PVal.num 10, PVal.num 20⟩, ⟨3, PVal.num 5, PVal.num 5⟩,
   ⟨1, PVal.num 30, PVal.num 40⟩]

/-- Witness for claim C6: only key 1 is in both inputs, so the merged table
has exactly one row. -/
theorem claim_C6_witness :
    (computeRatios cleanedC6 travelC6).length
      = ((cleanedC6.map CleanRow.zip_code).toFinset
          ∩ (travelC6.map TravelRow.zipcode).toFinset).card :=
  (claim_C6 cleanedC6 travelC6 (by decide)).1

/-! ### Claims C8, C9, C10 (weighted index, idempotence, reindexing) -/

/-- Claim C8: for every gap matrix and factor-loading matrix, each zone's
raw weighted index is the dot product of that zone's gap row with the
weight vector obtained by summing the loadings across factors (one raw
weight per indicator); the summed weights are used as they are, with no
rescaling to sum to 1. -/
theorem claim_C8 (matrix weights : List (Indicator → ℚ)) (p : ℕ)
    (row : Indicator → ℚ) (hp : matrix.get? p = some row) :
    (wdiList matrix weights).get? p
      = some ((indicators.map
          (fun i => row i * (weights.map (fun r => r i)).sum)).sum) := by
  unfold wdiList
  rw [List.get?_map, hp, Option.map_some']
  rfl

/-- The C8 witness gap row: violent_crime 2, every other indicator 1. -/
def rowC8 : Indicator → ℚ := fun i => if i = Indicator.violent_crime then 2 else 1

/-- The C8 witness loadings: two factors; the first loads 1 on everything,
the second loads 2 on RTI_ratio only.  The summed weights are
[1, 1, 3, 1, 1], which do not sum to 1. -/
def weightsC8 : List (Indicator → ℚ) :=
  [fun _ => 1, fun i => if i = Indicator.RTI_ratio then 2 else 0]

/-- Witness for claim C8: the single zone's index is
2*1 + 1*1 + 1*3 + 1*1 + 1*1 = 8. -/
theorem claim_C8_witness : (wdiList [rowC8] weightsC8).get? 0 = some 8 := by
  rw [claim_C8 [rowC8] weightsC8 0 rowC8 rfl]
  norm_num +decide [indicators, rowC8, weightsC8]

/-- The effect of `compute_ratios` on `self.data` leaves the rows alone. -/
lemma computeRatiosState_rows (s : DataState) :
    (computeRatiosState s).rows = s.rows := rfl

/-- Iterating `compute_ratios` never changes the rows of `self.data`. -/
lemma iterate_computeRatiosState_rows (s : DataState) (n : ℕ) :
    ((computeRatiosState)^[n] s).rows = s.rows := by
  induction n with
  | zero => rfl
  | succ n ih => rw [Function.iterate_succ_apply', computeRatiosState_rows, ih]

/-- Claim C9: `compute_ratios` writes the `RTI_ratio` column into the shared
`self.data` in place, but the write is idempotent: any number of calls
leaves the same state, every call returns the same merged table, and hence
the repeated recomputation inside `extend_data` gives identical
`deprivation_matrix` and `normalized_gap` results on every call. -/
theorem claim_C9 (travel : List TravelRow) (s : DataState) (n kk : ℕ)
    (t : Indicator → ℚ) :
    computeRatiosState (computeRatiosState s) = computeRatiosState s
    ∧ (computeRatiosState s).rtiCol = some (s.rows.map rtiOf)
    ∧ computeRatiosMerged travel ((computeRatiosState)^[n] s)
        = computeRatiosMerged travel s
    ∧ (computeRatiosMerged travel ((computeRatiosState)^[n] s)).map
          (fun r => fun i => matYEntry kk t r.ind i)
        = (computeRatiosMerged travel s).map
          (fun r => fun i => matYEntry kk t r.ind i)
    ∧ (computeRatiosMerged travel ((computeRatiosState)^[n] s)).map
          (fun r => fun i => matG1Entry kk t r.ind i)
        = (computeRatiosMerged travel s).map
          (fun r => fun i => matG1Entry kk t r.ind i) := by
  have hmerged : computeRatiosMerged travel ((computeRatiosState)^[n] s)
      = computeRatiosMerged travel s := by
    unfold computeRatiosMerged
    rw [iterate_computeRatiosState_rows]
  exact ⟨rfl, rfl, hmerged, by rw [hmerged], by rw [hmerged]⟩

/-- Claim C10: `weighted_deprivation_inx` reindexes its two series (indexed
`0..m-1` by the inner merge, `m` the gap-matrix row count) on the base
frame's index `0..n-1`: the result has one row per base-dataset row; the
positions below `m` carry the series values, every position from `m` on is
the NaN pair, and a NaN pair exists whenever the join dropped a row
(`m < n`) -- so the output indexing coincides with the gap matrix's only
when no row was dropped. -/
theorem claim_C10 (matrix weights : List (Indicator → ℚ)) (n p : ℕ) :
    (weightedDeprivationInx matrix weights n).length = n
    ∧ (p < n → matrix.length ≤ p →
        (weightedDeprivationInx matrix weights n).get? p
          = some ((none : Option ℚ), (none : Option PVal)))
    ∧ (p < n → p < matrix.length →
        ∃ q v, (weightedDeprivationInx matrix weights n).get? p
            = some (some q, some v)
          ∧ (wdiList matrix weights).get? p = some q
          ∧ (minMaxScale (wdiList matrix weights)).get? p = some v)
    ∧ (matrix.length < n →
        ((none : Option ℚ), (none : Option PVal))
          ∈ weightedDeprivationInx matrix weights n) := by
  have hlenw : (wdiList matrix weights).length = matrix.length :=
    List.length_map _ _
  have hlens : (minMaxScale (wdiList matrix weights)).length = matrix.length := by
    unfold minMaxScale
    rw [List.length_map, hlenw]
  have hget : ∀ pp, pp < n → (weightedDeprivationInx matrix weights n).get? pp
      = some ((wdiList matrix weights).get? pp,
              (minMaxScale (wdiList matrix weights)).get? pp) := by
    intro pp hpp
    unfold weightedDeprivationInx
    rw [List.get?_map, List.get?_range hpp, Option.map_some']
  refine ⟨?_, ?_, ?_, ?_⟩
  · unfold weightedDeprivationInx
    rw [List.length_map, List.length_range]
  · intro h1 h2
    rw [hget p h1, List.get?_eq_none.mpr (by rw [hlenw]; exact h2),
      List.get?_eq_none.mpr (by rw [hlens]; exact h2)]
  · intro h1 h2
    have hq : (wdiList matrix weights).get? p
        = some ((wdiList matrix weights).get ⟨p, by rw [hlenw]; exact h2⟩) :=
      List.get?_eq_get _
    have hv : (minMaxScale (wdiList matrix weights)).get? p
        = some ((minMaxScale (wdiList matrix weights)).get
            ⟨p, by rw [hlens]; exact h2⟩) :=
      List.get?_eq_get _
    exact ⟨_, _, by rw [hget p h1, hq, hv], hq, hv⟩
  · intro h
    have hm := hget matrix.length h
    rw [List.get?_eq_none.mpr (le_of_eq hlenw),
      List.get?_eq_none.mpr (le_of_eq hlens)] at hm
    exact List.get?_mem hm

/-- The C10 witness gap matrix: a single surviving zone. -/
def matrixC10 : List (Indicator → ℚ) := [fun _ => 1]

/-- Witness for claim C10: with base length 3 and one surviving zone, the
output has 3 rows and position 2 is the NaN pair. -/
theorem claim_C10_witness :
    (weightedDeprivationInx matrixC10 [] 3).length = 3
    ∧ (weightedDeprivationInx matrixC10 [] 3).get? 2
        = some ((none : Option ℚ), (none : Option PVal)) :=
  ⟨(claim_C10 matrixC10 [] 3 2).1,
   (claim_C10 matrixC10 [] 3 2).2.1 (by norm_num) (by norm_num [matrixC10])⟩

end DeprivationEvictions
